import Mathlib

/-!
Verification of the ATM low-level-design program (src/code.cpp).

The C++ code is shallowly embedded: C++ `double` amounts and balances are
modelled as exact rationals (ℚ), the wall-clock timestamp produced by
`Transaction::getCurrentTime` is passed in as an explicit `String`
parameter, `std::vector` fields become `List`s, and the two
`unordered_map<string, ·>` members of `BankService` become association
lists with in-place-update insertion (`upsert`), matching the observable
key/value behaviour of `operator[]` plus `find`.  Member functions that
mutate `this` become functions returning the updated value (paired with
the C++ return value when there is one); `void` members return just the
updated value.
-/

namespace ATMSpec

/-- TransactionType enumerates the two operation kinds of the C++
`enum class TransactionType`. -/
inductive TransactionType where
  | DEPOSIT
  | WITHDRAW
deriving DecidableEq, Repr

/-- Transaction models the C++ `Transaction` class: an operation kind, an
amount, and the timestamp captured at construction time (here supplied
explicitly by the caller). -/
structure Transaction where
  ttype : TransactionType
  amount : ℚ
  timestamp : String
deriving DecidableEq, Repr

/-- Account models the C++ `Account` class: an account number, a balance
and the ordered transaction log.  The per-account mutex only serialises
the member functions and has no sequential effect, so it has no
counterpart here. -/
structure Account where
  accountNumber : String
  balance : ℚ
  transactions : List Transaction
deriving DecidableEq, Repr

/-- Account.deposit embeds `Account::deposit`: unconditionally add the
amount to the balance and append a DEPOSIT transaction.  The C++ member
returns `void`, so the embedding returns only the updated account. -/
def Account.deposit (a : Account) (now : String) (amount : ℚ) : Account :=
  { a with
    balance := a.balance + amount
    transactions := a.transactions ++ [⟨TransactionType.DEPOSIT, amount, now⟩] }

/-- Account.withdraw embeds `Account::withdraw`: if the amount exceeds the
balance, return `false` leaving the account untouched; otherwise subtract
the amount, append a WITHDRAW transaction, and return `true`. -/
def Account.withdraw (a : Account) (now : String) (amount : ℚ) : Bool × Account :=
  if a.balance < amount then
    (false, a)
  else
    (true,
      { a with
        balance := a.balance - amount
        transactions := a.transactions ++ [⟨TransactionType.WITHDRAW, amount, now⟩] })

/-- Account.getBalance embeds `Account::getBalance`. -/
def Account.getBalance (a : Account) : ℚ := a.balance

/-- User models the C++ `User` class: a name, a PIN and the list of owned
accounts (the C++ `vector<Account*>`). -/
structure User where
  name : String
  pin : String
  accounts : List Account
deriving DecidableEq, Repr

/-- User.authenticate embeds `User::authenticate`: plain string equality
of the stored PIN with the candidate PIN. -/
def User.authenticate (u : User) (inputPin : String) : Bool :=
  u.pin == inputPin

/-- User.addAccount embeds `User::addAccount`: append with no
de-duplication. -/
def User.addAccount (u : User) (account : Account) : User :=
  { u with accounts := u.accounts ++ [account] }

/-- Op is one front-door mutation of a single account, used to reason
about arbitrary sequences of `Account` operations. -/
inductive Op where
  | dep (now : String) (amount : ℚ)
  | wd (now : String) (amount : ℚ)
deriving DecidableEq, Repr

/-- Op.apply runs one operation on an account, discarding the success
flag of a withdrawal (its state effect is kept). -/
def Op.apply (a : Account) : Op → Account
  | Op.dep now amount => a.deposit now amount
  | Op.wd now amount => (a.withdraw now amount).2

/-- runOps applies a sequence of deposit/withdraw operations in order. -/
def runOps (a : Account) (ops : List Op) : Account :=
  ops.foldl Op.apply a

/-- Op.depositNonneg holds when a deposit operation carries a
non-negative amount; withdrawals are unconstrained. -/
def Op.depositNonneg : Op → Prop
  | Op.dep _ amount => 0 ≤ amount
  | Op.wd _ _ => True

instance : DecidablePred Op.depositNonneg := by
  intro op
  cases op with
  | dep now amount => exact inferInstanceAs (Decidable (0 ≤ amount))
  | wd now amount => exact inferInstanceAs (Decidable True)

/-- upsert models `unordered_map::operator[]` followed by assignment on
an association list: replace the value in place when the key is present,
otherwise add a new entry. -/
def upsert {α : Type} (k : String) (v : α) : List (String × α) → List (String × α)
  | [] => [(k, v)]
  | (k', v') :: rest =>
      if k' = k then (k, v) :: rest else (k', v') :: upsert k v rest

/-- BankService models the concrete C++ `BankService`: the
account-number-to-user map and the account-number-to-account map. -/
structure BankService where
  users : List (String × User)
  accounts : List (String × Account)
deriving Repr

/-- BankService.empty is a freshly constructed `BankService` with both
maps empty. -/
def BankService.empty : BankService := ⟨[], []⟩

/-- BankService.indexAccount is the loop body of `BankService::addUser`:
index the user and one of its accounts under the account number in the
respective maps. -/
def BankService.indexAccount (user : User) (b : BankService) (acc : Account) :
    BankService :=
  { users := upsert acc.accountNumber user b.users
    accounts := upsert acc.accountNumber acc b.accounts }

/-- BankService.addUser embeds `BankService::addUser`: for each account
of the user, index the user and the account under the account number in
the respective maps. -/
def BankService.addUser (bs : BankService) (user : User) : BankService :=
  user.accounts.foldl (BankService.indexAccount user) bs

/-- BankService.getAccount embeds `BankService::getAccount`: map lookup,
`nullptr` (here `none`) when the key is absent. -/
def BankService.getAccount (bs : BankService) (accNum : String) : Option Account :=
  bs.accounts.lookup accNum

/-- BankService.getUserByAccount embeds `BankService::getUserByAccount`:
map lookup, `nullptr` (here `none`) when the key is absent. -/
def BankService.getUserByAccount (bs : BankService) (accNum : String) : Option User :=
  bs.users.lookup accNum

/-- BankService.deposit embeds `BankService::deposit`: resolve the
account; on failure return `false` with no state change, otherwise
perform the account deposit (which always succeeds) and return `true`. -/
def BankService.deposit (bs : BankService) (now accNum : String) (amount : ℚ) :
    Bool × BankService :=
  match bs.getAccount accNum with
  | none => (false, bs)
  | some acc =>
      (true, { bs with accounts := upsert accNum (acc.deposit now amount) bs.accounts })

/-- BankService.withdraw embeds `BankService::withdraw`: resolve the
account; on failure return `false` with no state change, otherwise
forward the account withdrawal result. -/
def BankService.withdraw (bs : BankService) (now accNum : String) (amount : ℚ) :
    Bool × BankService :=
  match bs.getAccount accNum with
  | none => (false, bs)
  | some acc =>
      let r := acc.withdraw now amount
      (r.1, { bs with accounts := upsert accNum r.2 bs.accounts })

/-- BankService.getBalance embeds `BankService::getBalance`: the balance
of the resolved account, or the sentinel `-1` when the account number is
unknown. -/
def BankService.getBalance (bs : BankService) (accNum : String) : ℚ :=
  match bs.getAccount accNum with
  | none => -1
  | some acc => acc.getBalance

/-- ATM models the session state of the C++ `ATM` class: the currently
authenticated user and account, both `nullptr` (here `none`) when logged
out.  The `bankService` pointer is passed explicitly to `login`. -/
structure ATM where
  currentUser : Option User
  currentAccount : Option Account
deriving Repr

/-- ATM.login embeds `ATM::login`: resolve the user by account number;
when found and the PIN authenticates, record the user and the resolved
account in the session and return `true`; otherwise return `false` with
the session unchanged. -/
def ATM.login (atm : ATM) (bs : BankService) (accNum pin : String) : Bool × ATM :=
  match bs.getUserByAccount accNum with
  | some user =>
      if user.authenticate pin then
        (true, { currentUser := some user, currentAccount := bs.getAccount accNum })
      else
        (false, atm)
  | none => (false, atm)

/-- keyIns describes the effect of `upsert` on the key list: keep the
key list unchanged when the key is already present, otherwise add the
key at the end. -/
def keyIns (k : String) : List String → List String
  | [] => [k]
  | k' :: ks => if k' = k then k' :: ks else k' :: keyIns k ks

lemma map_fst_upsert {α : Type} (k : String) (v : α) (l : List (String × α)) :
    (upsert k v l).map Prod.fst = keyIns k (l.map Prod.fst) := by
  induction l with
  | nil => rfl
  | cons p rest ih =>
      by_cases h : p.1 = k
      · simp [upsert, keyIns, h]
      · simp [upsert, keyIns, h, ih]

lemma lookup_eq_none_of_not_mem {α : Type} (k : String) (l : List (String × α))
    (h : k ∉ l.map Prod.fst) : l.lookup k = none := by
  induction l with
  | nil => rfl
  | cons p rest ih =>
      have hne : ¬ k = p.1 := by
        intro hk
        exact h (by simp [hk])
      have hb : (k == p.1) = false := beq_eq_false_iff_ne.mpr hne
      have hrest : k ∉ rest.map Prod.fst := fun hm => h (by simp [hm])
      simpa [List.lookup, hb] using ih hrest

/-- C1: a withdrawal whose amount strictly exceeds the balance returns
the failure indicator `false` and leaves the account (balance and
transaction history alike) entirely unchanged. -/
theorem C1_withdraw_insufficient (a : Account) (now : String) (amount : ℚ)
    (h : a.balance < amount) :
    a.withdraw now amount = (false, a) := by
  simp [Account.withdraw, h]

/-- C1 witness: withdrawing 2000 from a balance of 1000 fails and
changes nothing. -/
theorem C1_witness :
    (Account.mk "ACC1001" 1000 []).balance < 2000 ∧
    (Account.mk "ACC1001" 1000 []).withdraw "t" 2000
      = (false, Account.mk "ACC1001" 1000 []) :=
  ⟨by decide, C1_withdraw_insufficient (Account.mk "ACC1001" 1000 []) "t" 2000 (by decide)⟩

/-- C3: a deposit of any amount (zero and negative amounts included)
always succeeds — it is a total operation with no error result — adding
the amount to the balance and appending exactly one DEPOSIT transaction
carrying that amount. -/
theorem C3_deposit_spec (a : Account) (now : String) (amount : ℚ) :
    (a.deposit now amount).balance = a.balance + amount ∧
    (a.deposit now amount).transactions
      = a.transactions ++ [⟨TransactionType.DEPOSIT, amount, now⟩] :=
  ⟨rfl, rfl⟩

/-- C6: authentication succeeds exactly when the candidate string equals
the stored PIN, as case-sensitive exact string equality. -/
theorem C6_authenticate_iff (u : User) (s : String) :
    u.authenticate s = true ↔ s = u.pin := by
  unfold User.authenticate
  rw [beq_iff_eq]
  exact eq_comm

/-- C10: withdrawing a negative amount from a non-negative balance is
accepted (the sole rejection check is amount > balance), increases the
balance by the absolute value of the amount, and logs a WITHDRAW
transaction carrying the negative amount. -/
theorem C10_withdraw_negative (a : Account) (now : String) (amount : ℚ)
    (h1 : 0 ≤ a.balance) (h2 : amount < 0) :
    (a.withdraw now amount).1 = true ∧
    (a.withdraw now amount).2.balance = a.balance - amount ∧
    (a.withdraw now amount).2.transactions
      = a.transactions ++ [⟨TransactionType.WITHDRAW, amount, now⟩] := by
  have hcond : ¬ a.balance < amount := by linarith
  simp [Account.withdraw, hcond]

/-- C10 witness: withdrawing -5 from a zero balance succeeds and leaves
a balance of 5 with a WITHDRAW -5 entry logged. -/
theorem C10_witness :
    0 ≤ (Account.mk "ACC1001" 0 []).balance ∧ ((-5 : ℚ) < 0) ∧
    (((Account.mk "ACC1001" 0 []).withdraw "t" (-5)).1 = true ∧
     ((Account.mk "ACC1001" 0 []).withdraw "t" (-5)).2.balance
        = (Account.mk "ACC1001" 0 []).balance - (-5) ∧
     ((Account.mk "ACC1001" 0 []).withdraw "t" (-5)).2.transactions
        = (Account.mk "ACC1001" 0 []).transactions
            ++ [⟨TransactionType.WITHDRAW, -5, "t"⟩]) :=
  ⟨by decide, by decide,
    C10_withdraw_negative (Account.mk "ACC1001" 0 []) "t" (-5) (by decide) (by decide)⟩

/-- C7: a deposit of A followed by a withdrawal of A (where A does not
exceed the balance at the withdrawal step) restores the initial balance
and appends exactly two entries in call order: DEPOSIT A then
WITHDRAW A. -/
theorem C7_deposit_withdraw_roundtrip (a : Account) (t1 t2 : String) (amount : ℚ)
    (h : amount ≤ (a.deposit t1 amount).balance) :
    ((a.deposit t1 amount).withdraw t2 amount).1 = true ∧
    ((a.deposit t1 amount).withdraw t2 amount).2.balance = a.balance ∧
    ((a.deposit t1 amount).withdraw t2 amount).2.transactions
      = a.transactions
          ++ [⟨TransactionType.DEPOSIT, amount, t1⟩,
              ⟨TransactionType.WITHDRAW, amount, t2⟩] := by
  have h0 : ¬ a.balance < 0 := by
    simp only [Account.deposit] at h
    intro hlt
    linarith
  refine ⟨?_, ?_, ?_⟩ <;>
    simp [Account.withdraw, Account.deposit, h0]

/-- C7 witness: depositing 500 onto a balance of 1000 and withdrawing
500 again restores the balance 1000 and logs the two entries in order. -/
theorem C7_witness :
    (500 : ℚ) ≤ ((Account.mk "ACC1001" 1000 []).deposit "t1" 500).balance ∧
    ((((Account.mk "ACC1001" 1000 []).deposit "t1" 500).withdraw "t2" 500).1 = true ∧
     (((Account.mk "ACC1001" 1000 []).deposit "t1" 500).withdraw "t2" 500).2.balance
        = (Account.mk "ACC1001" 1000 []).balance ∧
     (((Account.mk "ACC1001" 1000 []).deposit "t1" 500).withdraw "t2" 500).2.transactions
        = (Account.mk "ACC1001" 1000 []).transactions
            ++ [⟨TransactionType.DEPOSIT, 500, "t1"⟩,
                ⟨TransactionType.WITHDRAW, 500, "t2"⟩]) :=
  ⟨by norm_num [Account.deposit],
   C7_deposit_withdraw_roundtrip (Account.mk "ACC1001" 1000 []) "t1" "t2" 500
    (by norm_num [Account.deposit])⟩

lemma apply_balance_nonneg (a : Account) (op : Op)
    (h0 : 0 ≤ a.balance) (hop : op.depositNonneg) : 0 ≤ (op.apply a).balance := by
  cases op with
  | dep now amount =>
      simp only [Op.depositNonneg] at hop
      simp only [Op.apply, Account.deposit]
      linarith
  | wd now amount =>
      by_cases hlt : a.balance < amount
      · simpa [Op.apply, Account.withdraw, hlt] using h0
      · simp only [Op.apply, Account.withdraw, hlt, if_false, ite_false]
        simp only [not_lt] at hlt
        simp
        linarith

/-- C2 counterexample: the claim quantifies over arbitrary real
arguments, but a single deposit of -1 on a zero-balance account drives
the balance negative (deposit performs no sign check). -/
theorem C2_counterexample :
    0 ≤ (Account.mk "ACC1001" 0 []).balance ∧
    (runOps (Account.mk "ACC1001" 0 []) [Op.dep "t" (-1)]).balance < 0 := by
  constructor
  · norm_num
  · norm_num [runOps, Op.apply, Account.deposit]

/-- C2 (amended): starting from a non-negative balance, any sequence of
deposit and withdraw operations in which every deposit amount is
non-negative leaves the balance non-negative (withdraw amounts remain
unrestricted: an excessive withdrawal is rejected and a negative one
only increases the balance). -/
theorem C2_amended_balance_nonneg (ops : List Op) :
    ∀ a : Account, 0 ≤ a.balance → (∀ op ∈ ops, op.depositNonneg) →
      0 ≤ (runOps a ops).balance := by
  induction ops with
  | nil =>
      intro a h0 _
      simpa [runOps] using h0
  | cons op rest ih =>
      intro a h0 h
      have hstep : 0 ≤ (op.apply a).balance :=
        apply_balance_nonneg a op h0 (h op (by simp))
      have hrest : ∀ o ∈ rest, o.depositNonneg := fun o ho => h o (by simp [ho])
      simpa [runOps, List.foldl_cons] using ih (op.apply a) hstep hrest

/-- C2 witness: from balance 2, a deposit of 1 then withdrawals of 3 and
10 keep the balance non-negative. -/
theorem C2_witness :
    0 ≤ (Account.mk "ACC1001" 2 []).balance ∧
    (∀ op ∈ [Op.dep "a" 1, Op.wd "b" 3, Op.wd "c" 10], op.depositNonneg) ∧
    0 ≤ (runOps (Account.mk "ACC1001" 2 []) [Op.dep "a" 1, Op.wd "b" 3, Op.wd "c" 10]).balance :=
  ⟨by decide, by decide,
    C2_amended_balance_nonneg [Op.dep "a" 1, Op.wd "b" 3, Op.wd "c" 10]
      (Account.mk "ACC1001" 2 []) (by decide) (by decide)⟩

/-- C5: for an account identifier registered in neither directory map,
every lookup-dependent service operation returns its uniform not-found
outcome with no state change: deposit and withdraw return `false` with
the service unchanged, getBalance returns the sentinel -1, and
getUserByAccount and getAccount return `none`. -/
theorem C5_unknown_id (bs : BankService) (now accNum : String) (amount : ℚ)
    (hu : accNum ∉ bs.users.map Prod.fst)
    (ha : accNum ∉ bs.accounts.map Prod.fst) :
    bs.deposit now accNum amount = (false, bs) ∧
    bs.withdraw now accNum amount = (false, bs) ∧
    bs.getBalance accNum = -1 ∧
    bs.getUserByAccount accNum = none ∧
    bs.getAccount accNum = none := by
  have hga : bs.getAccount accNum = none :=
    lookup_eq_none_of_not_mem accNum bs.accounts ha
  have hgu : bs.getUserByAccount accNum = none :=
    lookup_eq_none_of_not_mem accNum bs.users hu
  refine ⟨?_, ?_, ?_, hgu, hga⟩ <;>
    simp [BankService.deposit, BankService.withdraw, BankService.getBalance, hga]

/-- demoUser is the user "Alice" from the demo `main`, with PIN 1234 and
account ACC1001 holding 1000. -/
def demoUser : User := User.mk "Alice" "1234" [Account.mk "ACC1001" 1000 []]

/-- demoBank is a directory holding only `demoUser`, as registered by
`addUser`. -/
def demoBank : BankService := BankService.empty.addUser demoUser

/-- C5 witness: looking up the unregistered identifier ACC9999 in the
demo bank yields the uniform not-found outcomes. -/
theorem C5_witness :
    "ACC9999" ∉ demoBank.users.map Prod.fst ∧
    "ACC9999" ∉ demoBank.accounts.map Prod.fst ∧
    (demoBank.deposit "t" "ACC9999" 5 = (false, demoBank) ∧
     demoBank.withdraw "t" "ACC9999" 5 = (false, demoBank) ∧
     demoBank.getBalance "ACC9999" = -1 ∧
     demoBank.getUserByAccount "ACC9999" = none ∧
     demoBank.getAccount "ACC9999" = none) :=
  ⟨by decide, by decide,
    C5_unknown_id demoBank "t" "ACC9999" 5 (by decide) (by decide)⟩

lemma keys_eq_indexAccount (u : User) (bs : BankService) (acc : Account)
    (h : bs.users.map Prod.fst = bs.accounts.map Prod.fst) :
    (BankService.indexAccount u bs acc).users.map Prod.fst
      = (BankService.indexAccount u bs acc).accounts.map Prod.fst := by
  simp [BankService.indexAccount, map_fst_upsert, h]

lemma keys_eq_foldl_index (u : User) (accs : List Account) :
    ∀ bs : BankService, bs.users.map Prod.fst = bs.accounts.map Prod.fst →
      (accs.foldl (BankService.indexAccount u) bs).users.map Prod.fst
        = (accs.foldl (BankService.indexAccount u) bs).accounts.map Prod.fst := by
  induction accs with
  | nil =>
      intro bs h
      simpa using h
  | cons a rest ih =>
      intro bs h
      simpa [List.foldl_cons] using ih _ (keys_eq_indexAccount u bs a h)

/-- C8: after any sequence of addUser registrations starting from an
empty directory, the user map and the account map have exactly the same
key set. -/
theorem C8_key_sets_equal (us : List User) (k : String) :
    k ∈ (us.foldl BankService.addUser BankService.empty).users.map Prod.fst ↔
    k ∈ (us.foldl BankService.addUser BankService.empty).accounts.map Prod.fst := by
  have h : ∀ bs : BankService, bs.users.map Prod.fst = bs.accounts.map Prod.fst →
      (us.foldl BankService.addUser bs).users.map Prod.fst
        = (us.foldl BankService.addUser bs).accounts.map Prod.fst := by
    induction us with
    | nil =>
        intro bs hbs
        simpa using hbs
    | cons u rest ih =>
        intro bs hbs
        simpa [List.foldl_cons] using
          ih _ (keys_eq_foldl_index u u.accounts bs hbs)
  rw [h BankService.empty rfl]

/-- C9: from a logged-out session, login succeeds exactly when the
identifier resolves to a registered user whose PIN authenticates; on
success the session records that user and the account resolved for the
identifier, and on failure the session is unchanged. -/
theorem C9_login_spec (atm : ATM) (bs : BankService) (accNum pin : String)
    (hlo : atm.currentUser = none) :
    ((atm.login bs accNum pin).1 = true ↔
       ∃ u, bs.getUserByAccount accNum = some u ∧ u.authenticate pin = true) ∧
    ((atm.login bs accNum pin).1 = true →
       (atm.login bs accNum pin).2.currentUser = bs.getUserByAccount accNum ∧
       (atm.login bs accNum pin).2.currentAccount = bs.getAccount accNum) ∧
    ((atm.login bs accNum pin).1 = false → (atm.login bs accNum pin).2 = atm) := by
  cases hu : bs.getUserByAccount accNum with
  | none => simp [ATM.login, hu]
  | some u =>
      by_cases hp : u.authenticate pin = true
      · simp [ATM.login, hu, hp]
      · simp [ATM.login, hu, hp]

/-- C9 witness: from a logged-out session, login against the demo bank
with the registered identifier and correct PIN satisfies the login
contract. -/
theorem C9_witness :
    (ATM.mk none none).currentUser = none ∧
    (((ATM.mk none none).login demoBank "ACC1001" "1234").1 = true ↔
       ∃ u, demoBank.getUserByAccount "ACC1001" = some u ∧ u.authenticate "1234" = true) ∧
    (((ATM.mk none none).login demoBank "ACC1001" "1234").1 = true →
       ((ATM.mk none none).login demoBank "ACC1001" "1234").2.currentUser
         = demoBank.getUserByAccount "ACC1001" ∧
       ((ATM.mk none none).login demoBank "ACC1001" "1234").2.currentAccount
         = demoBank.getAccount "ACC1001") ∧
    (((ATM.mk none none).login demoBank "ACC1001" "1234").1 = false →
       ((ATM.mk none none).login demoBank "ACC1001" "1234").2 = ATM.mk none none) :=
  ⟨rfl,
    (C9_login_spec (ATM.mk none none) demoBank "ACC1001" "1234" rfl).1,
    (C9_login_spec (ATM.mk none none) demoBank "ACC1001" "1234" rfl).2.1,
    (C9_login_spec (ATM.mk none none) demoBank "ACC1001" "1234" rfl).2.2⟩

end ATMSpec
